import Mathlib

/-!
Shallow embedding of the two-phase todo application.

Phase 1 (`src/phase1`): an in-memory `TaskManager` holding a list of
immutable `Task` records with an auto-increment id counter, plus the CLI
command layer that validates input before calling the manager.

Phase 2 (`src/phase2/backend`): a persistent multi-user task service.
The database table is modelled as a list of `Task` rows plus the
auto-increment counter; each `TaskService` method is translated from
`src/services/task_service.py`, the pydantic schemas from
`src/schemas/task.py`, and the GET-by-id route from
`src/api/routes/tasks.py`.  Wall-clock timestamps are modelled as `Nat`
values passed in explicitly ("now").
-/

/-- Python `str.strip()`: drop leading and trailing whitespace. Structurally
recursive counterpart of `String.trim`, so the kernel can evaluate it on
literals. -/
def pyStrip (s : String) : String :=
  ⟨((s.data.dropWhile Char.isWhitespace).reverse.dropWhile Char.isWhitespace).reverse⟩

namespace Phase1

/-- `TaskStatus` enum from `src/phase1/src/models/task.py`. -/
inductive TaskStatus where
  | incomplete
  | complete
deriving DecidableEq

/-- Immutable task dataclass from `src/phase1/src/models/task.py`. -/
structure Task where
  id : Nat
  title : String
  description : String
  status : TaskStatus
  created_at : Nat

/-- `Task.create` factory: new task with `INCOMPLETE` status, creation time `now`. -/
def Task.create (title : String) (description : String) (auto_id : Nat) (now : Nat) : Task :=
  { id := auto_id
    title := title
    description := description
    status := TaskStatus.incomplete
    created_at := now }

/-- In-memory manager state from `src/phase1/src/services/task_manager.py`:
the task list and the `_next_id` counter. -/
structure TaskManager where
  tasks : List Task
  next_id : Nat

/-- `TaskManager.__init__`: empty list, counter starts at 1. -/
def TaskManager.init : TaskManager :=
  { tasks := [], next_id := 1 }

/-- `TaskManager.add_task`: always succeeds; appends `Task.create(title, description, _next_id)`
verbatim (no trimming, no emptiness check) and increments `_next_id`. -/
def TaskManager.add_task (m : TaskManager) (title : String) (description : String)
    (now : Nat) : Task × TaskManager :=
  let task := Task.create title description m.next_id now
  (task, { tasks := m.tasks ++ [task], next_id := m.next_id + 1 })

/-- `TaskManager.get_task`: linear scan returning the first task with the given id. -/
def TaskManager.get_task (m : TaskManager) (task_id : Nat) : Option Task :=
  m.tasks.find? (fun t => t.id == task_id)

/-- Replace the first list element with the given id (models
`idx = self._tasks.index(task); self._tasks[idx] = updated_task`, where
`task` is the first element carrying that id). -/
def replaceById : List Task → Nat → Task → List Task
  | [], _, _ => []
  | t :: rest, task_id, t' =>
    if t.id == task_id then t' :: rest else t :: replaceById rest task_id t'

/-- `TaskManager.update_task`: keep unsupplied fields, rebuild the frozen record,
replace it in the list; `False` when the id is not found. -/
def TaskManager.update_task (m : TaskManager) (task_id : Nat)
    (title : Option String) (description : Option String) : Bool × TaskManager :=
  match m.get_task task_id with
  | none => (false, m)
  | some task =>
    let new_title := title.getD task.title
    let new_description := description.getD task.description
    let updated_task : Task :=
      { id := task.id
        title := new_title
        description := new_description
        status := task.status
        created_at := task.created_at }
    (true, { m with tasks := replaceById m.tasks task_id updated_task })

/-- `TaskManager.delete_task`: remove the first task with the given id
(`self._tasks.remove(task)`); `False` when not found, counter untouched. -/
def TaskManager.delete_task (m : TaskManager) (task_id : Nat) : Bool × TaskManager :=
  match m.get_task task_id with
  | none => (false, m)
  | some _ => (true, { m with tasks := m.tasks.eraseP (fun t => t.id == task_id) })

/-- `TaskManager.toggle_task_status`: flip `INCOMPLETE ⇄ COMPLETE` on the found task,
replace it in the list; `False` when not found. -/
def TaskManager.toggle_task_status (m : TaskManager) (task_id : Nat) : Bool × TaskManager :=
  match m.get_task task_id with
  | none => (false, m)
  | some task =>
    let new_status :=
      if task.status = TaskStatus.incomplete then TaskStatus.complete
      else TaskStatus.incomplete
    let updated_task : Task :=
      { id := task.id
        title := task.title
        description := task.description
        status := new_status
        created_at := task.created_at }
    (true, { m with tasks := replaceById m.tasks task_id updated_task })

/-- Outcome printed by a CLI command handler in `src/phase1/src/cli/commands.py`. -/
inductive CmdOutcome where
  | errorTitleRequired
  | errorNotFound
  | errorEmptyTitle
  | errorNoFields
  | ok

/-- `add_command`: rejects a missing/whitespace-only title before calling the manager
(`if not title or not title.strip()`); otherwise delegates to `add_task`. -/
def add_command (m : TaskManager) (title : String) (description : Option String)
    (now : Nat) : CmdOutcome × TaskManager :=
  let description := description.getD ""
  if title = "" ∨ pyStrip title = "" then (CmdOutcome.errorTitleRequired, m)
  else (CmdOutcome.ok, (m.add_task title description now).2)

/-- `update_command`: not-found check, then supplied-but-blank title check, then the
both-fields-absent check, each leaving the manager untouched; otherwise `update_task`. -/
def update_command (m : TaskManager) (task_id : Nat)
    (title : Option String) (description : Option String) : CmdOutcome × TaskManager :=
  if (m.get_task task_id).isNone then (CmdOutcome.errorNotFound, m)
  else if (match title with | some t => pyStrip t = "" | none => false : Bool) then
    (CmdOutcome.errorEmptyTitle, m)
  else if title = none ∧ description = none then (CmdOutcome.errorNoFields, m)
  else (CmdOutcome.ok, (m.update_task task_id title description).2)

end Phase1

namespace Phase2

/-- Row of the `tasks` table from `src/phase2/backend/src/db/models.py`.
`id` is the auto-increment primary key, `user_id` the owner, `status` one of
`"incomplete"`/`"complete"`; timestamps modelled as `Nat`. -/
structure Task where
  id : Nat
  user_id : String
  title : String
  description : Option String
  status : String
  created_at : Nat
  updated_at : Nat

/-- Database state: the `tasks` table plus the auto-increment id counter. -/
structure Store where
  tasks : List Task
  next_id : Nat

/-- Well-formedness the ORM maintains: row ids are distinct and below the counter. -/
def Store.WF (s : Store) : Prop :=
  (s.tasks.map Task.id).Nodup ∧ ∀ t ∈ s.tasks, t.id < s.next_id

instance (s : Store) : Decidable s.WF := by
  unfold Store.WF
  infer_instance

/-- Validated payload of the `TaskCreate` pydantic schema. -/
structure TaskCreate where
  title : String
  description : Option String

/-- Validated payload of the `TaskUpdate` pydantic schema (both fields optional). -/
structure TaskUpdate where
  title : Option String
  description : Option String

/-- `TaskCreate.title` validation from `src/phase2/backend/src/schemas/task.py`:
field constraints `min_length=1, max_length=255` on the raw string, then the
`title_not_empty` validator rejects whitespace-only and returns `v.strip()`. -/
def validateTitleCreate (v : String) : Option String :=
  if v.length < 1 ∨ 255 < v.length then none
  else if pyStrip v = "" then none
  else some (pyStrip v)

/-- `description` validation shared by both schemas: `max_length=10000` on the raw
string, then `description_trimmed` returns `v.strip() if v else v`. -/
def validateDescription (d : Option String) : Option (Option String) :=
  match d with
  | none => some none
  | some v =>
    if 10000 < v.length then none
    else some (some (if v = "" then v else pyStrip v))

/-- `TaskUpdate.title` validation: `None` passes through; a supplied string must meet
`min_length=1, max_length=255` and must not be whitespace-only, and is stripped. -/
def validateTitleUpdate (v : Option String) : Option (Option String) :=
  match v with
  | none => some none
  | some t =>
    if t.length < 1 ∨ 255 < t.length then none
    else if pyStrip t = "" then none
    else some (some (pyStrip t))

/-- Full request-body validation of `TaskCreate` (as pydantic performs it on the
route boundary): `some` of the validated payload, or `none` (HTTP 400). -/
def parseTaskCreate (title : String) (description : Option String) : Option TaskCreate :=
  match validateTitleCreate title, validateDescription description with
  | some t, some d => some { title := t, description := d }
  | _, _ => none

/-- Full request-body validation of `TaskUpdate`. -/
def parseTaskUpdate (title : Option String) (description : Option String) : Option TaskUpdate :=
  match validateTitleUpdate title, validateDescription description with
  | some t, some d => some { title := t, description := d }
  | _, _ => none

namespace TaskService

/-- `TaskService.create_task`: build the row with the caller's `user_id`, validated
title/description, `status="incomplete"`, timestamps `now`, auto-assigned id; persist. -/
def create_task (s : Store) (user_id : String) (task_data : TaskCreate)
    (now : Nat) : Task × Store :=
  let task : Task :=
    { id := s.next_id
      user_id := user_id
      title := task_data.title
      description := task_data.description
      status := "incomplete"
      created_at := now
      updated_at := now }
  (task, { tasks := s.tasks ++ [task], next_id := s.next_id + 1 })

/-- `TaskService.get_task`: single `select` filtered by `Task.id == task_id` AND
`Task.user_id == user_id`, `.first()`: ownership is part of the lookup itself. -/
def get_task (s : Store) (task_id : Nat) (user_id : String) : Option Task :=
  s.tasks.find? (fun t => t.id == task_id && t.user_id == user_id)

/-- `TaskService.get_user_tasks`: query filtered by `user_id`, optionally by `status`
(Python truthiness: a `None` or empty-string filter is skipped), ordered by
`created_at` descending. -/
def get_user_tasks (s : Store) (user_id : String) (status : Option String) : List Task :=
  let base := s.tasks.filter (fun t => t.user_id == user_id)
  let filtered :=
    match status with
    | some st => if st = "" then base else base.filter (fun t => t.status == st)
    | none => base
  filtered.mergeSort (fun a b => b.created_at ≤ a.created_at)

/-- Replace the first row matching `(task_id, user_id)` — the row an ORM `UPDATE`
of the object fetched by `get_task` touches. -/
def replaceRow : List Task → Nat → String → Task → List Task
  | [], _, _, _ => []
  | t :: rest, task_id, user_id, t' =>
    if t.id == task_id && t.user_id == user_id then t' :: rest
    else t :: replaceRow rest task_id user_id t'

/-- `TaskService.update_task`: ownership-scoped fetch via `get_task`; `None` when
absent; otherwise overwrite exactly the supplied fields, refresh `updated_at`, persist. -/
def update_task (s : Store) (task_id : Nat) (user_id : String)
    (task_data : TaskUpdate) (now : Nat) : Option Task × Store :=
  match get_task s task_id user_id with
  | none => (none, s)
  | some task =>
    let task :=
      match task_data.title with
      | some t => { task with title := t }
      | none => task
    let task :=
      match task_data.description with
      | some d => { task with description := some d }
      | none => task
    let task := { task with updated_at := now }
    (some task, { s with tasks := replaceRow s.tasks task_id user_id task })

/-- `TaskService.delete_task`: ownership-scoped fetch; `False` when absent; otherwise
remove exactly that row and return `True`. -/
def delete_task (s : Store) (task_id : Nat) (user_id : String) : Bool × Store :=
  match get_task s task_id user_id with
  | none => (false, s)
  | some _ =>
    (true, { s with tasks := s.tasks.eraseP (fun t => t.id == task_id && t.user_id == user_id) })

/-- `TaskService.toggle_task_status`: ownership-scoped fetch; `None` when absent;
otherwise flip `"incomplete" ⇄ "complete"`, refresh `updated_at`, persist. -/
def toggle_task_status (s : Store) (task_id : Nat) (user_id : String)
    (now : Nat) : Option Task × Store :=
  match get_task s task_id user_id with
  | none => (none, s)
  | some task =>
    let task :=
      { task with
        status := if task.status = "incomplete" then "complete" else "incomplete"
        updated_at := now }
    (some task, { s with tasks := replaceRow s.tasks task_id user_id task })

end TaskService

/-- Response of the GET `/api/users/\x7buser_id\x7d/tasks/\x7bid\x7d` route. -/
inductive GetTaskResponse where
  | ok (t : Task)
  | forbidden
  | notFound

/-- The GET-by-id route handler from `src/phase2/backend/src/api/routes/tasks.py`:
403 when the path `user_id` differs from the authenticated id; otherwise a uniform
404 whenever the ownership-scoped lookup comes back empty. -/
def route_get_task (auth_user_id : String) (user_id : String) (id : Nat)
    (s : Store) : GetTaskResponse :=
  if user_id ≠ auth_user_id then GetTaskResponse.forbidden
  else
    match TaskService.get_task s id user_id with
    | none => GetTaskResponse.notFound
    | some t => GetTaskResponse.ok t

/-- The POST `/tasks` route handler: 403 on path/auth mismatch, 400 (store untouched)
when the body fails `TaskCreate` validation, otherwise create. -/
def route_create_task (auth_user_id : String) (user_id : String)
    (title : String) (description : Option String) (s : Store)
    (now : Nat) : Option Task × Store :=
  if user_id ≠ auth_user_id then (none, s)
  else
    match parseTaskCreate title description with
    | none => (none, s)
    | some td =>
      let r := TaskService.create_task s user_id td now
      (some r.1, r.2)

end Phase2

/-- Sequential creates: run `add_task` `n` times from a manager (used for the
id-assignment scenarios; title/description/time are irrelevant to ids). -/
def Phase1.TaskManager.createN (m : Phase1.TaskManager) : Nat → Phase1.TaskManager
  | 0 => m
  | n + 1 => ((m.createN n).add_task "task" "" 0).2

/-- The status flip performed by `toggle_task_status`. -/
def Phase2.flipStatus (st : String) : String :=
  if st = "incomplete" then "complete" else "incomplete"

/-- The row written back by one toggle: status flipped, `updated_at` refreshed. -/
def Phase2.toggledTask (t : Phase2.Task) (now : Nat) : Phase2.Task :=
  { t with status := Phase2.flipStatus t.status, updated_at := now }

/-- C1, stated for one store / requester / id: `get_task` returns a row exactly when
that row is in the table with the requested id and the requester as owner; whenever
no such owned row exists — id absent or row owned by someone else alike — the service
yields `none` and the route the uniform 404. -/
def C1Prop (s : Phase2.Store) (uid : String) (tid : Nat) : Prop :=
  (∀ t : Phase2.Task,
    Phase2.TaskService.get_task s tid uid = some t ↔
      (t ∈ s.tasks ∧ t.id = tid ∧ t.user_id = uid))
  ∧ ((∀ t ∈ s.tasks, ¬(t.id = tid ∧ t.user_id = uid)) →
      Phase2.TaskService.get_task s tid uid = none ∧
      Phase2.route_get_task uid uid tid s = Phase2.GetTaskResponse.notFound)

/-- C2, stated for one store / owner / filter: the listing never contains a foreign
row for any filter value, is a permutation of the owner's rows (restricted by a
non-empty status filter), and is ordered by `created_at` descending. -/
def C2Prop (s : Phase2.Store) (uid : String) (status : Option String) : Prop :=
  (∀ t ∈ Phase2.TaskService.get_user_tasks s uid status, t.user_id = uid)
  ∧ (status = none →
      (Phase2.TaskService.get_user_tasks s uid status).Perm
        (s.tasks.filter (fun t => t.user_id == uid)))
  ∧ (∀ st : String, status = some st → st ≠ "" →
      (Phase2.TaskService.get_user_tasks s uid status).Perm
        ((s.tasks.filter (fun t => t.user_id == uid)).filter (fun t => t.status == st)))
  ∧ (Phase2.TaskService.get_user_tasks s uid status).Pairwise
      (fun a b => b.created_at ≤ a.created_at)

/-- C3: id assignment. After `n` sequential creates from a fresh manager the ids are
exactly `1..n` (no gaps, no duplicates, strictly increasing) and the counter is
`n + 1`; deletes never move the counter (phase 1 and phase 2 alike), creates hand
out the counter value and bump it; hence create×1000, delete id 500, create yields
id 1001. -/
def C3Prop : Prop :=
  (∀ n : Nat,
    ((Phase1.TaskManager.init.createN n).tasks.map Phase1.Task.id = List.range' 1 n)
    ∧ (Phase1.TaskManager.init.createN n).next_id = n + 1
    ∧ ((Phase1.TaskManager.init.createN n).tasks.map Phase1.Task.id).Nodup
    ∧ List.Pairwise (fun a b => a < b)
        ((Phase1.TaskManager.init.createN n).tasks.map Phase1.Task.id))
  ∧ (∀ (m : Phase1.TaskManager) (i : Nat), ((m.delete_task i).2).next_id = m.next_id)
  ∧ (∀ (m : Phase1.TaskManager) (title descr : String) (now : Nat),
      ((m.add_task title descr now).1).id = m.next_id
      ∧ ((m.add_task title descr now).2).next_id = m.next_id + 1)
  ∧ (∀ (s : Phase2.Store) (i : Nat) (uid : String),
      ((Phase2.TaskService.delete_task s i uid).2).next_id = s.next_id)
  ∧ (∀ (s : Phase2.Store) (uid : String) (td : Phase2.TaskCreate) (now : Nat),
      ((Phase2.TaskService.create_task s uid td now).1).id = s.next_id
      ∧ ((Phase2.TaskService.create_task s uid td now).2).next_id = s.next_id + 1)
  ∧ ((((Phase1.TaskManager.init.createN 1000).delete_task 500).2.add_task "x" "" 0).1.id
      = 1001)

/-- C4, stated for one store / owner / id / fetched row: one toggle flips the status
(and only refreshes `updated_at`); a second toggle restores the original status with
every other field intact. -/
def C4Prop (s : Phase2.Store) (uid : String) (tid : Nat) (t : Phase2.Task)
    (n1 n2 : Nat) : Prop :=
  (∃ t1 : Phase2.Task,
    (Phase2.TaskService.toggle_task_status s tid uid n1).1 = some t1
    ∧ t1.id = t.id ∧ t1.user_id = t.user_id ∧ t1.title = t.title
    ∧ t1.description = t.description ∧ t1.created_at = t.created_at
    ∧ t1.updated_at = n1 ∧ t1.status ≠ t.status)
  ∧ (∃ t2 : Phase2.Task,
    (Phase2.TaskService.toggle_task_status
      (Phase2.TaskService.toggle_task_status s tid uid n1).2 tid uid n2).1 = some t2
    ∧ t2.status = t.status ∧ t2.id = t.id ∧ t2.user_id = t.user_id
    ∧ t2.title = t.title ∧ t2.description = t.description
    ∧ t2.created_at = t.created_at ∧ t2.updated_at = n2)

/-- C5, stated for one store / owner / raw input / validated payload: the created row
has status `"incomplete"`, both timestamps equal to the creation instant, the trimmed
title and description, the caller as owner — and an immediate ownership-scoped get
returns exactly that row. -/
def C5Prop (s : Phase2.Store) (uid : String) (title : String)
    (descr : Option String) (td : Phase2.TaskCreate) (now : Nat) : Prop :=
  ((Phase2.TaskService.create_task s uid td now).1).status = "incomplete"
  ∧ ((Phase2.TaskService.create_task s uid td now).1).created_at = now
  ∧ ((Phase2.TaskService.create_task s uid td now).1).updated_at = now
  ∧ ((Phase2.TaskService.create_task s uid td now).1).user_id = uid
  ∧ ((Phase2.TaskService.create_task s uid td now).1).title = pyStrip title
  ∧ ((Phase2.TaskService.create_task s uid td now).1).description
      = descr.map pyStrip
  ∧ Phase2.TaskService.get_task (Phase2.TaskService.create_task s uid td now).2
      ((Phase2.TaskService.create_task s uid td now).1).id uid
      = some (Phase2.TaskService.create_task s uid td now).1

/-- C6, stated for one store and raw request body: an invalid body (blank title after
trim, overlong title, overlong description) fails schema validation, and the create
route returns the error leaving the store exactly as it was. -/
def C6Prop (s : Phase2.Store) (uid : String) (title : String)
    (descr : Option String) (now : Nat) : Prop :=
  Phase2.parseTaskCreate title descr = none
  ∧ Phase2.route_create_task uid uid title descr s now = (none, s)

/-- C7 (amended), stated for one store / owner / id / fetched row: a phase 2 update
supplying neither field succeeds and preserves every field except `updated_at`,
which is refreshed; the phase 1 CLI instead rejects such a call outright, leaving
the manager untouched. -/
def C7AmendedProp (s : Phase2.Store) (uid : String) (tid : Nat) (t : Phase2.Task)
    (now : Nat) : Prop :=
  ((Phase2.TaskService.update_task s tid uid
      { title := none, description := none } now).1
    = some { t with updated_at := now })
  ∧ ((Phase2.TaskService.update_task s tid uid
      { title := none, description := none } now).2).tasks
    = Phase2.TaskService.replaceRow s.tasks tid uid { t with updated_at := now }
  ∧ (∀ (m : Phase1.TaskManager) (i : Nat),
      (Phase1.update_command m i none none).1 ≠ Phase1.CmdOutcome.ok
      ∧ (Phase1.update_command m i none none).2 = m)

/-- C8, stated for one store / owner / id / fetched row / validated payload: update
changes exactly the supplied fields, never `id`/`owner`/`status`/`created_at`,
refreshes `updated_at`, and writes back only that row; a supplied blank title fails
`TaskUpdate` validation. -/
def C8Prop (s : Phase2.Store) (uid : String) (tid : Nat) (t : Phase2.Task)
    (td : Phase2.TaskUpdate) (now : Nat) : Prop :=
  (∃ t' : Phase2.Task,
    (Phase2.TaskService.update_task s tid uid td now).1 = some t'
    ∧ t'.id = t.id ∧ t'.user_id = t.user_id ∧ t'.status = t.status
    ∧ t'.created_at = t.created_at ∧ t'.updated_at = now
    ∧ t'.title = td.title.getD t.title
    ∧ t'.description = (match td.description with
        | some d => some d
        | none => t.description)
    ∧ ((Phase2.TaskService.update_task s tid uid td now).2).tasks
        = Phase2.TaskService.replaceRow s.tasks tid uid t')
  ∧ (∀ v : String, pyStrip v = "" →
      ∀ d : Option String, Phase2.parseTaskUpdate (some v) d = none)

/-- C9, stated for one store / owner / id: delete answers `true` exactly when an
owned row with that id exists, removes exactly that row (every other row survives,
nothing new appears, the match is gone), is the identity on a miss, and a second
delete of the same id answers `false` and changes nothing. -/
def C9Prop (s : Phase2.Store) (uid : String) (tid : Nat) : Prop :=
  ((Phase2.TaskService.delete_task s tid uid).1 = true ↔
    ∃ t ∈ s.tasks, t.id = tid ∧ t.user_id = uid)
  ∧ ((Phase2.TaskService.delete_task s tid uid).1 = false →
      (Phase2.TaskService.delete_task s tid uid).2 = s)
  ∧ (∀ u ∈ s.tasks, ¬(u.id = tid ∧ u.user_id = uid) →
      u ∈ ((Phase2.TaskService.delete_task s tid uid).2).tasks)
  ∧ (∀ u ∈ ((Phase2.TaskService.delete_task s tid uid).2).tasks, u ∈ s.tasks)
  ∧ ((Phase2.TaskService.delete_task s tid uid).1 = true →
      Phase2.TaskService.get_task ((Phase2.TaskService.delete_task s tid uid).2) tid uid
        = none)
  ∧ (Phase2.TaskService.delete_task ((Phase2.TaskService.delete_task s tid uid).2) tid uid
      = (false, (Phase2.TaskService.delete_task s tid uid).2))

/-- C10: the phase 1 service-layer `add_task` is total and verbatim — any title
(blank included) and description are stored untrimmed, the task is appended with
status `INCOMPLETE` — while the blank-title rejection lives in the CLI `add`
command, which leaves the manager untouched. -/
def C10Prop : Prop :=
  (∀ (m : Phase1.TaskManager) (title description : String) (now : Nat),
    ((m.add_task title description now).1).title = title
    ∧ ((m.add_task title description now).1).description = description
    ∧ ((m.add_task title description now).1).status = Phase1.TaskStatus.incomplete
    ∧ ((m.add_task title description now).2).tasks
        = m.tasks ++ [(m.add_task title description now).1])
  ∧ (∀ (m : Phase1.TaskManager) (title : String) (d : Option String) (now : Nat),
      pyStrip title = "" →
      Phase1.add_command m title d now = (Phase1.CmdOutcome.errorTitleRequired, m))

/-- Fixture row: task 1 owned by alice. -/
def aliceTask : Phase2.Task :=
  { id := 1
    user_id := "alice"
    title := "Buy milk"
    description := none
    status := "incomplete"
    created_at := 3
    updated_at := 3 }

/-- Fixture row: task 2 owned by bob. -/
def bobTask : Phase2.Task :=
  { id := 2
    user_id := "bob"
    title := "Walk dog"
    description := some "daily"
    status := "complete"
    created_at := 5
    updated_at := 6 }

/-- Fixture store holding one alice row and one bob row. -/
def demoStore : Phase2.Store :=
  { tasks := [aliceTask, bobTask], next_id := 3 }

/-- With distinct row ids, the ownership-scoped scan finds any member row that
carries the requested id and owner. -/
theorem Phase2.find_owned_of_nodup (l : List Phase2.Task) (tid : Nat) (uid : String)
    (hnd : (l.map Phase2.Task.id).Nodup) (t : Phase2.Task) (hm : t ∈ l)
    (hid : t.id = tid) (huid : t.user_id = uid) :
    l.find? (fun u => u.id == tid && u.user_id == uid) = some t := by
  induction l with
  | nil => cases hm
  | cons a l ih =>
    simp only [List.map_cons, List.nodup_cons] at hnd
    rcases List.mem_cons.mp hm with h | h
    · subst h
      simp [List.find?_cons, hid, huid]
    · have hat : a.id ≠ tid := by
        intro hEq
        exact hnd.1 (hEq ▸ hid ▸ List.mem_map_of_mem Phase2.Task.id h)
      have hpa : (a.id == tid && a.user_id == uid) = false := by
        simp [hat]
      rw [List.find?_cons_of_neg _ (by simp [hpa])]
      exact ih hnd.2 h

/-- Under well-formedness, `get_task` answers a row exactly when that row sits in
the table with the requested id and owner. -/
theorem Phase2.get_task_eq_some_iff (s : Phase2.Store) (hwf : s.WF) (tid : Nat)
    (uid : String) (t : Phase2.Task) :
    Phase2.TaskService.get_task s tid uid = some t ↔
      (t ∈ s.tasks ∧ t.id = tid ∧ t.user_id = uid) := by
  constructor
  · intro h
    have hm := List.mem_of_find?_eq_some h
    have hp := List.find?_some h
    simp only [Bool.and_eq_true, beq_iff_eq] at hp
    exact ⟨hm, hp.1, hp.2⟩
  · rintro ⟨hm, hid, huid⟩
    exact Phase2.find_owned_of_nodup s.tasks tid uid hwf.1 t hm hid huid

/-- `get_task` answers `none` exactly when no owned row with the id is present. -/
theorem Phase2.get_task_eq_none_iff (s : Phase2.Store) (tid : Nat) (uid : String) :
    Phase2.TaskService.get_task s tid uid = none ↔
      ∀ t ∈ s.tasks, ¬(t.id = tid ∧ t.user_id = uid) := by
  unfold Phase2.TaskService.get_task
  rw [List.find?_eq_none]
  constructor
  · intro h t ht hc
    exact h t ht (by simp [hc.1, hc.2])
  · intro h t ht hp
    simp only [Bool.and_eq_true, beq_iff_eq] at hp
    exact h t ht ⟨hp.1, hp.2⟩

/-- C1: for every requesting owner and task id, `get_task` returns the row exactly
when it exists under that owner; a missing id and a foreign-owned id both produce
the same `none`, and the GET-by-id route the same uniform 404, so a get by one
owner never reveals whether a row exists under another owner. -/
theorem C1_get_owner_scoped (s : Phase2.Store) (hwf : s.WF) (uid : String)
    (tid : Nat) : C1Prop s uid tid := by
  constructor
  · intro t
    exact Phase2.get_task_eq_some_iff s hwf tid uid t
  · intro hno
    have hn : Phase2.TaskService.get_task s tid uid = none :=
      (Phase2.get_task_eq_none_iff s tid uid).mpr hno
    refine ⟨hn, ?_⟩
    simp [Phase2.route_get_task, hn]

/-- C1 witness: in the two-row fixture store, bob's get for alice's task id 1
(which exists but is foreign) and for the absent id 9 both come back not-found. -/
theorem C1_witness :
    C1Prop demoStore "bob" 1 ∧ C1Prop demoStore "bob" 9 :=
  ⟨C1_get_owner_scoped demoStore (by decide) "bob" 1,
   C1_get_owner_scoped demoStore (by decide) "bob" 9⟩

/-- C3: ids are assigned by an auto-increment counter: `n` sequential creates yield
exactly ids `1..n`, unique and strictly increasing; deletes never move the counter
in either phase; hence 1000 creates, delete id 500, create yields id 1001. -/
theorem C3_id_assignment : C3Prop := by
  have key : ∀ n : Nat,
      ((Phase1.TaskManager.init.createN n).tasks.map Phase1.Task.id = List.range' 1 n)
      ∧ (Phase1.TaskManager.init.createN n).next_id = n + 1 := by
    intro n
    induction n with
    | zero => exact ⟨rfl, rfl⟩
    | succ k ih =>
      constructor
      · show (((Phase1.TaskManager.init.createN k).add_task "task" "" 0).2.tasks.map
            Phase1.Task.id) = _
        simp [Phase1.TaskManager.add_task, Phase1.Task.create, ih.1, ih.2,
          List.range'_1_concat, Nat.add_comm]
      · show (((Phase1.TaskManager.init.createN k).add_task "task" "" 0).2.next_id) = _
        simp [Phase1.TaskManager.add_task, ih.2]
  refine ⟨?_, ?_, ?_, ?_, ?_, ?_⟩
  · intro n
    refine ⟨(key n).1, (key n).2, ?_, ?_⟩
    · rw [(key n).1]
      exact List.nodup_range' 1 n
    · rw [(key n).1]
      exact List.pairwise_lt_range' 1 n
  · intro m i
    cases h : m.get_task i <;> simp [Phase1.TaskManager.delete_task, h]
  · intro m title descr now
    exact ⟨rfl, rfl⟩
  · intro s i uid
    cases h : Phase2.TaskService.get_task s i uid <;>
      simp [Phase2.TaskService.delete_task, h]
  · intro s uid td now
    exact ⟨rfl, rfl⟩
  · have hgen : ∀ (n k : Nat),
        ((((Phase1.TaskManager.init.createN n).delete_task k).2.add_task "x" "" 0).1).id
          = n + 1 := by
      intro n k
      have hadd : ∀ (m : Phase1.TaskManager) (t d : String) (j : Nat),
          ((m.add_task t d j).1).id = m.next_id := fun _ _ _ _ => rfl
      have hdel : ∀ (m : Phase1.TaskManager) (i : Nat),
          ((m.delete_task i).2).next_id = m.next_id := by
        intro m i
        cases h : m.get_task i <;> simp [Phase1.TaskManager.delete_task, h]
      rw [hadd, hdel, (key n).2]
    exact hgen 1000 500

/-- Replacing the first `(id, owner)`-matching row with a row that still carries
that id and owner makes the ownership-scoped scan find the replacement, provided a
match was present. -/
theorem Phase2.find_replaceRow (l : List Phase2.Task) (tid : Nat) (uid : String)
    (t' : Phase2.Task) (h1 : t'.id = tid) (h2 : t'.user_id = uid)
    (hfound : ∃ t0, l.find? (fun u => u.id == tid && u.user_id == uid) = some t0) :
    (Phase2.TaskService.replaceRow l tid uid t').find?
      (fun u => u.id == tid && u.user_id == uid) = some t' := by
  induction l with
  | nil => simp at hfound
  | cons a l ih =>
    by_cases hpa : (a.id == tid && a.user_id == uid) = true
    · simp only [Phase2.TaskService.replaceRow, hpa, if_true]
      simp [List.find?_cons, h1, h2]
    · simp only [Phase2.TaskService.replaceRow, hpa, if_false, Bool.false_eq_true]
      rw [List.find?_cons_of_neg _ (by simp [hpa])]
      apply ih
      obtain ⟨t0, ht0⟩ := hfound
      rw [List.find?_cons_of_neg _ (by simp [hpa])] at ht0
      exact ⟨t0, ht0⟩

/-- C4: toggling an existing owned task flips its status and refreshes only
`updated_at`; toggling twice restores the original status and leaves id, owner,
title, description and `created_at` untouched. -/
theorem C4_toggle_involution (s : Phase2.Store) (uid : String) (tid : Nat)
    (t : Phase2.Task) (n1 n2 : Nat)
    (ht : Phase2.TaskService.get_task s tid uid = some t)
    (hst : t.status = "incomplete" ∨ t.status = "complete") :
    C4Prop s uid tid t n1 n2 := by
  have hp := List.find?_some ht
  simp only [Bool.and_eq_true, beq_iff_eq] at hp
  obtain ⟨hid, huid⟩ := hp
  have hr1 : Phase2.TaskService.toggle_task_status s tid uid n1
      = (some (Phase2.toggledTask t n1),
         { s with tasks := Phase2.TaskService.replaceRow s.tasks tid uid (Phase2.toggledTask t n1) }) := by
    unfold Phase2.TaskService.toggle_task_status Phase2.toggledTask Phase2.flipStatus
    rw [ht]
  have hget1 : Phase2.TaskService.get_task
      { s with tasks := Phase2.TaskService.replaceRow s.tasks tid uid (Phase2.toggledTask t n1) }
      tid uid = some (Phase2.toggledTask t n1) :=
    Phase2.find_replaceRow s.tasks tid uid _ hid huid ⟨t, ht⟩
  have hr2 : (Phase2.TaskService.toggle_task_status
      { s with tasks := Phase2.TaskService.replaceRow s.tasks tid uid (Phase2.toggledTask t n1) }
      tid uid n2).1 = some (Phase2.toggledTask (Phase2.toggledTask t n1) n2) := by
    unfold Phase2.TaskService.toggle_task_status
    rw [hget1]
    rfl
  constructor
  · refine ⟨Phase2.toggledTask t n1, by rw [hr1], rfl, rfl, rfl, rfl, rfl, rfl, ?_⟩
    show Phase2.flipStatus t.status ≠ t.status
    unfold Phase2.flipStatus
    by_cases h : t.status = "incomplete"
    · rw [h]
      decide
    · rw [if_neg h]
      exact fun hc => h hc.symm
  · refine ⟨Phase2.toggledTask (Phase2.toggledTask t n1) n2, by rw [hr1]; exact hr2,
      ?_, rfl, rfl, rfl, rfl, rfl, rfl⟩
    show Phase2.flipStatus (Phase2.flipStatus t.status) = t.status
    unfold Phase2.flipStatus
    rcases hst with h | h <;> rw [h] <;> decide

/-- C4 witness: toggling alice's incomplete fixture task twice restores its status
with all other fields intact. -/
theorem C4_witness : C4Prop demoStore "alice" 1 aliceTask 7 8 :=
  C4_toggle_involution demoStore "alice" 1 aliceTask 7 8 rfl (Or.inl rfl)

/-- C2: the listing never contains a foreign row for any filter value; with no
filter (or the falsy empty-string filter) it is a permutation of the owner's rows,
with a non-empty status filter a permutation of the owner's rows with that status;
and it is ordered by `created_at` descending (newest-created first). -/
theorem C2_list_owner_scoped (s : Phase2.Store) (uid : String)
    (status : Option String) : C2Prop s uid status := by
  have hsorted : ∀ l : List Phase2.Task,
      (l.mergeSort (fun a b => b.created_at ≤ a.created_at)).Pairwise
        (fun a b => b.created_at ≤ a.created_at) := by
    intro l
    refine List.Pairwise.imp ?_ (List.sorted_mergeSort ?_ ?_ l)
    · intro a b h
      exact of_decide_eq_true h
    · intro a b c h1 h2
      simp only [decide_eq_true_eq] at h1 h2 ⊢
      exact Nat.le_trans h2 h1
    · intro a b
      simp only [Bool.or_eq_true, decide_eq_true_eq]
      exact Nat.le_total b.created_at a.created_at
  have huser : ∀ (l : List Phase2.Task) (t : Phase2.Task),
      t ∈ l.filter (fun u => u.user_id == uid) → t.user_id = uid := by
    intro l t h
    have h2 := (List.mem_filter.mp h).2
    simpa using h2
  cases status with
  | none =>
    have hr : Phase2.TaskService.get_user_tasks s uid none
        = (s.tasks.filter (fun u => u.user_id == uid)).mergeSort
            (fun a b => b.created_at ≤ a.created_at) := rfl
    refine ⟨?_, ?_, ?_, ?_⟩
    · intro t htr
      rw [hr] at htr
      exact huser s.tasks t (List.mem_mergeSort.mp htr)
    · intro _
      rw [hr]
      exact List.mergeSort_perm _ _
    · intro st h1 h2
      simp at h1
    · rw [hr]
      exact hsorted _
  | some st =>
    by_cases hst : st = ""
    · subst hst
      have hr : Phase2.TaskService.get_user_tasks s uid (some "")
          = (s.tasks.filter (fun u => u.user_id == uid)).mergeSort
              (fun a b => b.created_at ≤ a.created_at) := by
        simp [Phase2.TaskService.get_user_tasks]
      refine ⟨?_, ?_, ?_, ?_⟩
      · intro t htr
        rw [hr] at htr
        exact huser s.tasks t (List.mem_mergeSort.mp htr)
      · intro h
        simp at h
      · intro st' h1 h2
        cases Option.some.inj h1
        exact absurd rfl h2
      · rw [hr]
        exact hsorted _
    · have hr : Phase2.TaskService.get_user_tasks s uid (some st)
          = ((s.tasks.filter (fun u => u.user_id == uid)).filter
              (fun u => u.status == st)).mergeSort
              (fun a b => b.created_at ≤ a.created_at) := by
        simp only [Phase2.TaskService.get_user_tasks]
        rw [if_neg hst]
      refine ⟨?_, ?_, ?_, ?_⟩
      · intro t htr
        rw [hr] at htr
        exact huser s.tasks t (List.mem_filter.mp (List.mem_mergeSort.mp htr)).1
      · intro h
        simp at h
      · intro st' h1 h2
        cases Option.some.inj h1
        rw [hr]
        exact List.mergeSort_perm _ _
      · rw [hr]
        exact hsorted _

/-- C2 witness: alice's filtered listing over the two-row fixture store. -/
theorem C2_witness :
    C2Prop demoStore "alice" (some "complete") ∧ C2Prop demoStore "alice" none :=
  ⟨C2_list_owner_scoped demoStore "alice" (some "complete"),
   C2_list_owner_scoped demoStore "alice" none⟩

/-- A validated create title is the stripped raw title. -/
theorem Phase2.validateTitleCreate_eq_some (v a : String)
    (h : Phase2.validateTitleCreate v = some a) : a = pyStrip v := by
  unfold Phase2.validateTitleCreate at h
  split at h
  · exact absurd h (by simp)
  · split at h
    · exact absurd h (by simp)
    · exact (Option.some.inj h).symm

/-- A validated description is the stripped raw description (strip is the identity
on the empty string). -/
theorem Phase2.validateDescription_eq_some (d : Option String) (b : Option String)
    (h : Phase2.validateDescription d = some b) : b = d.map pyStrip := by
  cases d with
  | none =>
    simp only [Phase2.validateDescription] at h
    simp [← Option.some.inj h]
  | some v =>
    simp only [Phase2.validateDescription] at h
    split at h
    · exact absurd h (by simp)
    · rw [← Option.some.inj h]
      by_cases hv : v = ""
    -- on the empty string strip is the identity, so both branches agree
      · simp [hv]
        rfl
      · simp [hv]

/-- C5: a successful create stores status `"incomplete"`, `created_at = updated_at
= now`, the stripped title and description, and the caller as owner; an immediate
ownership-scoped get returns that very row. -/
theorem C5_create_then_get (s : Phase2.Store) (hwf : s.WF) (uid : String)
    (title : String) (descr : Option String) (td : Phase2.TaskCreate) (now : Nat)
    (hv : Phase2.parseTaskCreate title descr = some td) :
    C5Prop s uid title descr td now := by
  have hparse : td.title = pyStrip title ∧ td.description = descr.map pyStrip := by
    unfold Phase2.parseTaskCreate at hv
    cases h1 : Phase2.validateTitleCreate title with
    | none => rw [h1] at hv; cases hv
    | some a =>
      cases h2 : Phase2.validateDescription descr with
      | none => rw [h1, h2] at hv; cases hv
      | some b =>
        rw [h1, h2] at hv
        have hab : td.title = a ∧ td.description = b := by
          cases Option.some.inj hv
          exact ⟨rfl, rfl⟩
        exact ⟨hab.1.trans (Phase2.validateTitleCreate_eq_some title a h1),
               hab.2.trans (Phase2.validateDescription_eq_some descr b h2)⟩
  have hget : Phase2.TaskService.get_task
      (Phase2.TaskService.create_task s uid td now).2
      ((Phase2.TaskService.create_task s uid td now).1).id uid
      = some (Phase2.TaskService.create_task s uid td now).1 := by
    unfold Phase2.TaskService.create_task Phase2.TaskService.get_task
    rw [List.find?_append]
    have hnone : s.tasks.find? (fun u => u.id == s.next_id && u.user_id == uid)
        = none := by
      apply List.find?_eq_none.mpr
      intro x hx
      simp only [Bool.and_eq_true, beq_iff_eq, not_and]
      intro hxid
      exact absurd hxid (Nat.ne_of_lt (hwf.2 x hx))
    rw [hnone]
    simp [List.find?_cons]
  exact ⟨rfl, rfl, rfl, rfl, hparse.1, hparse.2, hget⟩

/-- C5 witness: alice creates a task with padded title and description in the
two-row fixture store; all the guarantees hold and the immediate get finds it. -/
theorem C5_witness :
    C5Prop demoStore "alice" " Buy milk " (some " from the store ")
      { title := "Buy milk", description := some "from the store" } 9 :=
  C5_create_then_get demoStore (by decide) "alice" " Buy milk "
    (some " from the store ") { title := "Buy milk", description := some "from the store" }
    9 rfl

/-- C6: a blank-after-strip title, an overlong title, or an overlong description
fails `TaskCreate` validation, and the create route returns the error with the
store exactly as it was. -/
theorem C6_create_rejects_invalid (s : Phase2.Store) (uid : String)
    (title : String) (descr : Option String) (now : Nat)
    (h : pyStrip title = "" ∨ 255 < title.length
      ∨ ∃ d, descr = some d ∧ 10000 < d.length) :
    C6Prop s uid title descr now := by
  have hparse : Phase2.parseTaskCreate title descr = none := by
    rcases h with h | h | ⟨d, rfl, hd⟩
    · have hv : Phase2.validateTitleCreate title = none := by
        unfold Phase2.validateTitleCreate
        by_cases h0 : title.length < 1 ∨ 255 < title.length
        · rw [if_pos h0]
        · rw [if_neg h0, if_pos h]
      unfold Phase2.parseTaskCreate
      rw [hv]
    · have hv : Phase2.validateTitleCreate title = none := by
        unfold Phase2.validateTitleCreate
        rw [if_pos (Or.inr h)]
      unfold Phase2.parseTaskCreate
      rw [hv]
    · have hv2 : Phase2.validateDescription (some d) = none := by
        simp only [Phase2.validateDescription]
        rw [if_pos hd]
      unfold Phase2.parseTaskCreate
      rw [hv2]
      cases Phase2.validateTitleCreate title <;> rfl
  refine ⟨hparse, ?_⟩
  unfold Phase2.route_create_task
  rw [hparse]
  simp

/-- C6 witness: a whitespace-only title is rejected and the fixture store is
returned unchanged. -/
theorem C6_witness : C6Prop demoStore "alice" "   " none 4 :=
  C6_create_rejects_invalid demoStore "alice" "   " none 4 (Or.inl (by decide))

/-- C7 counterexample: in the fixture store, an update supplying neither field
succeeds (returns a task) AND alters the stored row — `updated_at` moves from 3
to 5 — contradicting the claim that a successful no-field update changes nothing. -/
theorem C7_counterexample :
    ((Phase2.TaskService.update_task demoStore 1 "alice"
        { title := none, description := none } 5).1).isSome = true
    ∧ (Phase2.TaskService.update_task demoStore 1 "alice"
        { title := none, description := none } 5).2 ≠ demoStore := by
  refine ⟨rfl, ?_⟩
  intro h
  have h2 : ([5, 6] : List Nat) = [3, 6] :=
    congrArg (fun s => s.tasks.map Phase2.Task.updated_at) h
  exact absurd h2 (by decide)

/-- C7 (amended): a phase 2 update supplying neither field succeeds, preserving
every field except `updated_at`, which is refreshed; the phase 1 CLI rejects such
a call outright and leaves the manager untouched. -/
theorem C7_amended_noop_update (s : Phase2.Store) (uid : String) (tid : Nat)
    (t : Phase2.Task) (now : Nat)
    (ht : Phase2.TaskService.get_task s tid uid = some t) :
    C7AmendedProp s uid tid t now := by
  have hr : Phase2.TaskService.update_task s tid uid
      { title := none, description := none } now
      = (some { t with updated_at := now },
         { s with tasks := Phase2.TaskService.replaceRow s.tasks tid uid ({ t with updated_at := now }) }) := by
    unfold Phase2.TaskService.update_task
    rw [ht]
  refine ⟨by rw [hr], by rw [hr], ?_⟩
  intro m i
  by_cases hg : (m.get_task i).isNone
  · constructor <;> simp [Phase1.update_command, hg]
  · constructor <;> simp [Phase1.update_command, hg]

/-- C7 (amended) witness: the no-field update on alice's fixture task returns the
row with only `updated_at` refreshed, and the phase 1 CLI path rejects it. -/
theorem C7_amended_witness : C7AmendedProp demoStore "alice" 1 aliceTask 5 :=
  C7_amended_noop_update demoStore "alice" 1 aliceTask 5 rfl

/-- C8: update rewrites exactly the supplied fields of an owned task — unsupplied
title/description are retained, id/owner/status/`created_at` never change,
`updated_at` is refreshed, only that row is written back — and a supplied
blank title fails `TaskUpdate` validation. -/
theorem C8_update_frame (s : Phase2.Store) (uid : String) (tid : Nat)
    (t : Phase2.Task) (td : Phase2.TaskUpdate) (now : Nat)
    (ht : Phase2.TaskService.get_task s tid uid = some t) :
    C8Prop s uid tid t td now := by
  constructor
  · obtain ⟨ot, od⟩ := td
    cases ot with
    | none =>
      cases od with
      | none =>
        have hr : Phase2.TaskService.update_task s tid uid
            { title := none, description := none } now
            = (some { t with updated_at := now },
               { s with tasks := Phase2.TaskService.replaceRow s.tasks tid uid ({ t with updated_at := now }) }) := by
          unfold Phase2.TaskService.update_task
          rw [ht]
        exact ⟨{ t with updated_at := now }, by rw [hr], rfl, rfl, rfl, rfl, rfl, rfl, rfl, by rw [hr]⟩
      | some d =>
        have hr : Phase2.TaskService.update_task s tid uid
            { title := none, description := some d } now
            = (some { t with description := some d, updated_at := now },
               { s with tasks := Phase2.TaskService.replaceRow s.tasks tid uid ({ t with description := some d, updated_at := now }) }) := by
          unfold Phase2.TaskService.update_task
          rw [ht]
        exact ⟨{ t with description := some d, updated_at := now }, by rw [hr], rfl, rfl, rfl, rfl, rfl, rfl, rfl, by rw [hr]⟩
    | some a =>
      cases od with
      | none =>
        have hr : Phase2.TaskService.update_task s tid uid
            { title := some a, description := none } now
            = (some { t with title := a, updated_at := now },
               { s with tasks := Phase2.TaskService.replaceRow s.tasks tid uid ({ t with title := a, updated_at := now }) }) := by
          unfold Phase2.TaskService.update_task
          rw [ht]
        exact ⟨{ t with title := a, updated_at := now }, by rw [hr], rfl, rfl, rfl, rfl, rfl, rfl, rfl, by rw [hr]⟩
      | some d =>
        have hr : Phase2.TaskService.update_task s tid uid
            { title := some a, description := some d } now
            = (some { t with title := a, description := some d, updated_at := now },
               { s with tasks := Phase2.TaskService.replaceRow s.tasks tid uid ({ t with title := a, description := some d, updated_at := now }) }) := by
          unfold Phase2.TaskService.update_task
          rw [ht]
        exact ⟨{ t with title := a, description := some d, updated_at := now }, by rw [hr], rfl, rfl, rfl, rfl, rfl, rfl, rfl, by rw [hr]⟩
  · intro v hv d
    have hv1 : Phase2.validateTitleUpdate (some v) = none := by
      simp only [Phase2.validateTitleUpdate]
      by_cases h0 : v.length < 1 ∨ 255 < v.length
      · rw [if_pos h0]
      · rw [if_neg h0, if_pos hv]
    unfold Phase2.parseTaskUpdate
    rw [hv1]

/-- C8 witness: updating only the title of alice's fixture task keeps its
description, status and `created_at`, refreshes `updated_at`, and blank titles
fail validation. -/
theorem C8_witness :
    C8Prop demoStore "alice" 1 aliceTask
      { title := some "Buy bread", description := none } 11 :=
  C8_update_frame demoStore "alice" 1 aliceTask
    { title := some "Buy bread", description := none } 11 rfl

/-- With distinct row ids, after erasing the `(id, owner)` match nothing matching
that id remains. -/
theorem Phase2.find_eraseP_none (l : List Phase2.Task) (tid : Nat) (uid : String)
    (hnd : (l.map Phase2.Task.id).Nodup) :
    (l.eraseP (fun u => u.id == tid && u.user_id == uid)).find?
      (fun u => u.id == tid && u.user_id == uid) = none := by
  induction l with
  | nil => rfl
  | cons a l ih =>
    simp only [List.map_cons, List.nodup_cons] at hnd
    by_cases hpa : (a.id == tid && a.user_id == uid) = true
    · rw [List.eraseP_cons_of_pos (p := fun u : Phase2.Task => u.id == tid && u.user_id == uid) hpa]
      apply List.find?_eq_none.mpr
      intro x hx hpx
      simp only [Bool.and_eq_true, beq_iff_eq] at hpa hpx
      have hax : a.id = x.id := by rw [hpa.1, hpx.1]
      exact hnd.1 (by rw [hax]; exact List.mem_map_of_mem Phase2.Task.id hx)
    · rw [List.eraseP_cons_of_neg (p := fun u : Phase2.Task => u.id == tid && u.user_id == uid) hpa,
        List.find?_cons_of_neg (p := fun u : Phase2.Task => u.id == tid && u.user_id == uid) _ hpa]
      exact ih hnd.2

/-- C9: delete answers `true` exactly when an owned row with the id exists,
removes exactly that row, is the identity on a miss, and repeated deletes of
the same id answer `false` without further effect. -/
theorem C9_delete_idempotent (s : Phase2.Store) (hwf : s.WF) (uid : String)
    (tid : Nat) : C9Prop s uid tid := by
  cases hfind : Phase2.TaskService.get_task s tid uid with
  | none =>
    have hr : Phase2.TaskService.delete_task s tid uid = (false, s) := by
      unfold Phase2.TaskService.delete_task
      rw [hfind]
    have hno := (Phase2.get_task_eq_none_iff s tid uid).mp hfind
    refine ⟨?_, ?_, ?_, ?_, ?_, ?_⟩
    · rw [hr]
      simp only [Bool.false_eq_true, false_iff]
      rintro ⟨t, htm, hprops⟩
      exact hno t htm hprops
    · intro _
      rw [hr]
    · intro u hu _
      rw [hr]
      exact hu
    · intro u hu
      rw [hr] at hu
      exact hu
    · intro hc
      rw [hr] at hc
      cases hc
    · rw [hr]
      exact hr
  | some t =>
    have hp := List.find?_some hfind
    simp only [Bool.and_eq_true, beq_iff_eq] at hp
    have hr : Phase2.TaskService.delete_task s tid uid
        = (true, { s with tasks := s.tasks.eraseP (fun u => u.id == tid && u.user_id == uid) }) := by
      unfold Phase2.TaskService.delete_task
      rw [hfind]
    have hgone : Phase2.TaskService.get_task
        { s with tasks := s.tasks.eraseP (fun u => u.id == tid && u.user_id == uid) }
        tid uid = none :=
      Phase2.find_eraseP_none s.tasks tid uid hwf.1
    refine ⟨?_, ?_, ?_, ?_, ?_, ?_⟩
    · rw [hr]
      simp only [true_iff]
      exact ⟨t, List.mem_of_find?_eq_some hfind, hp.1, hp.2⟩
    · intro hc
      rw [hr] at hc
      cases hc
    · intro u hu hnm
      rw [hr]
      refine (List.mem_eraseP_of_neg ?_).mpr hu
      simp only [Bool.and_eq_true, beq_iff_eq, not_and]
      intro h1 h2
      exact hnm ⟨h1, h2⟩
    · intro u hu
      rw [hr] at hu
      exact List.mem_of_mem_eraseP hu
    · intro _
      rw [hr]
      exact hgone
    · have hr2 : Phase2.TaskService.delete_task
          { s with tasks := s.tasks.eraseP (fun u => u.id == tid && u.user_id == uid) }
          tid uid
          = (false, { s with tasks := s.tasks.eraseP (fun u => u.id == tid && u.user_id == uid) }) := by
        unfold Phase2.TaskService.delete_task
        rw [hgone]
      rw [hr]
      exact hr2

/-- C9 witness: deleting alice's fixture task succeeds once; repeating the delete
answers false and leaves the store as the first delete left it. -/
theorem C9_witness : C9Prop demoStore "alice" 1 :=
  C9_delete_idempotent demoStore (by decide) "alice" 1

/-- C10: the phase 1 service `add_task` accepts every input verbatim; the CLI `add`
command alone rejects blank titles, leaving the manager untouched. -/
theorem C10_add_total_verbatim : C10Prop := by
  constructor
  · intro m title description now
    exact ⟨rfl, rfl, rfl, rfl⟩
  · intro m title d now htrim
    simp [Phase1.add_command, htrim]

/-- C10 witness: adding a whitespace-only title through the service succeeds and
stores it verbatim, while the CLI command rejects the same title. -/
theorem C10_witness :
    ((Phase1.TaskManager.init.add_task "   " "d" 0).1.title = "   "
      ∧ (Phase1.TaskManager.init.add_task "   " "d" 0).1.description = "d"
      ∧ (Phase1.TaskManager.init.add_task "   " "d" 0).1.status
          = Phase1.TaskStatus.incomplete
      ∧ (Phase1.TaskManager.init.add_task "   " "d" 0).2.tasks
          = Phase1.TaskManager.init.tasks ++ [(Phase1.TaskManager.init.add_task "   " "d" 0).1])
    ∧ Phase1.add_command Phase1.TaskManager.init "   " none 0
        = (Phase1.CmdOutcome.errorTitleRequired, Phase1.TaskManager.init) :=
  ⟨C10_add_total_verbatim.1 Phase1.TaskManager.init "   " "d" 0,
   C10_add_total_verbatim.2 Phase1.TaskManager.init "   " none 0 (by decide)⟩
